import Mathlib

/-!
Shallow embedding of src/skedda.py (SkeddaBooker), covering the
availability checker `space_is_free` and the sequential booking loop `run`.

Python values relevant to the checker are modelled explicitly:
identifiers may be JSON strings or numbers (`PyId`), the `spaces` field of a
reservation record may be absent, a string, a list, or a non-list non-string
value such as JSON null (`SpacesField`), and timestamps are strings parsed by
a model of `datetime.fromisoformat` (the strict pre-3.11 grammar, which is
the grammar the script relies on since it rewrites a trailing Z itself).
A raised Python exception is modelled as `Except.error ()` when it escapes a
function, and Python `datetime` comparison between an offset-naive and an
offset-aware value is an error (TypeError), as in CPython.
-/

deriving instance DecidableEq for Except

namespace Skedda

/-- A JSON-ish identifier as it reaches the checker: a string or a number.
`str` covers Python `str`, `int` covers Python `int`. -/
inductive PyId where
  | str (s : String)
  | int (n : Int)
deriving DecidableEq, Repr

/-- Python `str(x)` on an identifier. -/
def PyId.toStr : PyId → String
  | .str s => s
  | .int n => toString n

/-- Python truthiness of an identifier: empty string and zero are falsy. -/
def PyId.truthy : PyId → Bool
  | .str s => s != ""
  | .int n => n != 0

/-- The shape of `booking['spaces']`: absent, a string, a list, or a value
that is neither a list nor a string (JSON null, i.e. Python `None`); for the
last shape both continuations of the source raise (append on `None`, or
iterating `None` in the membership comprehension), so it is one case here. -/
inductive SpacesField where
  | absent
  | strVal (s : String)
  | listVal (l : List PyId)
  | nullVal
deriving DecidableEq, Repr

/-- One reservation record as consumed by `space_is_free`.  `start`/`end_`
are the raw timestamp strings (`none` = key absent, read back as `""` by
`booking.get('start', '')`).  `end_` embeds the source key `end`. -/
structure Booking where
  spaces : SpacesField
  space : Option PyId
  start : Option String
  end_ : Option String
deriving DecidableEq, Repr

/-- A parsed `datetime`: a point on the timeline in microseconds
(UTC microseconds for offset-aware values, local microseconds for naive
ones) plus the awareness flag carried by `tzinfo`. -/
structure PyDateTime where
  value : Int
  aware : Bool
deriving DecidableEq, Repr

/-- Order comparison of two datetimes.  CPython raises TypeError when one
side is offset-naive and the other offset-aware; otherwise it compares the
instants. -/
def pyLt (a b : PyDateTime) : Except Unit Bool :=
  if a.aware == b.aware then .ok (decide (a.value < b.value)) else .error ()

/-- Numeric value of a decimal digit character. -/
def digitVal? (c : Char) : Option Nat :=
  if '0' ≤ c ∧ c ≤ '9' then some (c.toNat - '0'.toNat) else none

/-- Parse exactly `k` decimal digits, most significant first. -/
def parseNum : Nat → Nat → List Char → Option (Nat × List Char)
  | 0, acc, cs => some (acc, cs)
  | _ + 1, _, [] => none
  | k + 1, acc, c :: cs =>
    match digitVal? c with
    | some d => parseNum k (acc * 10 + d) cs
    | none => none

/-- Consume one expected character. -/
def expectChar (c : Char) : List Char → Option (List Char)
  | [] => none
  | c' :: cs => if c' = c then some cs else none

/-- Gregorian leap year. -/
def isLeap (y : Nat) : Bool :=
  (y % 4 == 0 && y % 100 != 0) || y % 400 == 0

/-- Days in a month of the proleptic Gregorian calendar. -/
def daysInMonth (y m : Nat) : Nat :=
  if m == 2 then (if isLeap y then 29 else 28)
  else if m == 4 || m == 6 || m == 9 || m == 11 then 30
  else 31

/-- Days since 1970-01-01 of a civil date (standard era/year-of-era
computation; every intermediate is nonnegative for the four-digit years the
parser produces). -/
def daysFromCivil (y : Int) (m d : Nat) : Int :=
  let yAdj : Int := if m ≤ 2 then y - 1 else y
  let era : Int := (if 0 ≤ yAdj then yAdj else yAdj - 399) / 400
  let yoe : Int := yAdj - era * 400
  let mp : Int := ((m : Int) + 9) % 12
  let doy : Int := (153 * mp + 2) / 5 + (d : Int) - 1
  let doe : Int := yoe * 365 + yoe / 4 - yoe / 100 + doy
  era * 146097 + doe - 719468

/-- Digits of an optional fractional-seconds field; Python accepts exactly
three or six digits and scales to microseconds. -/
def takeDigits : List Char → (List Nat × List Char)
  | [] => ([], [])
  | c :: cs =>
    match digitVal? c with
    | some d => let p := takeDigits cs; (d :: p.1, p.2)
    | none => ([], c :: cs)

/-- Microseconds denoted by a fractional-seconds digit run. -/
def fracVal (ds : List Nat) : Option Nat :=
  if ds.length == 3 then some ((ds.foldl (fun a d => a * 10 + d) 0) * 1000)
  else if ds.length == 6 then some (ds.foldl (fun a d => a * 10 + d) 0)
  else none

/-- Optional trailing UTC offset `±HH:MM`; `some none` = no offset and end of
input, `some (some k)` = offset of `k` minutes.  Offsets of a day or more
are rejected, as CPython rejects them. -/
def parseOffsetEnd : List Char → Option (Option Int)
  | [] => some none
  | c :: cs =>
    if c = '+' || c = '-' then
      match parseNum 2 0 cs with
      | some (oh, cs1) =>
        match expectChar ':' cs1 with
        | some cs2 =>
          match parseNum 2 0 cs2 with
          | some (om, []) =>
            if oh ≤ 23 && om ≤ 59 then
              let mins : Int := (oh : Int) * 60 + (om : Int)
              some (some (if c = '-' then -mins else mins))
            else none
          | _ => none
        | none => none
      | none => none
    else none

/-- Time-of-day part `HH[:MM[:SS[.fff or .ffffff]]]` followed by an optional
offset: hour, minute, second, microsecond, offset. -/
def parseTime (cs : List Char) : Option (Nat × Nat × Nat × Nat × Option Int) :=
  match parseNum 2 0 cs with
  | none => none
  | some (h, cs1) =>
    if 23 < h then none else
    match cs1 with
    | ':' :: cs2 =>
      match parseNum 2 0 cs2 with
      | none => none
      | some (mi, cs3) =>
        if 59 < mi then none else
        match cs3 with
        | ':' :: cs4 =>
          match parseNum 2 0 cs4 with
          | none => none
          | some (s, cs5) =>
            if 59 < s then none else
            match cs5 with
            | '.' :: cs6 =>
              let p := takeDigits cs6
              match fracVal p.1 with
              | none => none
              | some f => (parseOffsetEnd p.2).map (fun off => (h, mi, s, f, off))
            | cs6 => (parseOffsetEnd cs6).map (fun off => (h, mi, s, 0, off))
        | cs4 => (parseOffsetEnd cs4).map (fun off => (h, mi, 0, 0, off))
    | cs2 => (parseOffsetEnd cs2).map (fun off => (h, 0, 0, 0, off))

/-- Model of `datetime.fromisoformat` on a character list:
`YYYY-MM-DD[<any separator char>HH[:MM[:SS[.fff or .ffffff]]][±HH:MM]]`,
with calendar and range validation.  `none` models a raised ValueError. -/
def parseIso (cs0 : List Char) : Option PyDateTime := do
  let (y, cs) ← parseNum 4 0 cs0
  let cs ← expectChar '-' cs
  let (mo, cs) ← parseNum 2 0 cs
  let cs ← expectChar '-' cs
  let (d, cs) ← parseNum 2 0 cs
  if mo < 1 ∨ 12 < mo then none
  else if d < 1 ∨ daysInMonth y mo < d then none
  else
    match cs with
    | [] => some { value := daysFromCivil (y : Int) mo d * 86400000000, aware := false }
    | _sep :: rest => do
      let (h, mi, s, f, off) ← parseTime rest
      let localUs : Int :=
        (daysFromCivil (y : Int) mo d * 86400
          + (h : Int) * 3600 + (mi : Int) * 60 + (s : Int)) * 1000000 + (f : Int)
      match off with
      | none => some { value := localUs, aware := false }
      | some o => some { value := localUs - o * 60000000, aware := true }

/-- `datetime.fromisoformat` on a string. -/
def fromisoformat (s : String) : Option PyDateTime := parseIso s.toList

/-- `s.replace('Z', '+00:00')` on the underlying characters: every `Z` is
rewritten. -/
def replaceZ : List Char → List Char
  | [] => []
  | c :: cs =>
    if c = 'Z' then '+' :: '0' :: '0' :: ':' :: '0' :: '0' :: replaceZ cs
    else c :: replaceZ cs

/-- `s.replace('Z', '+00:00')`. -/
def pyReplaceZ (s : String) : String := String.mk (replaceZ s.toList)

/-- `s.endswith('Z')`. -/
def endsWithZ (s : String) : Bool :=
  match s.toList.getLast? with
  | some c => c == 'Z'
  | none => false

/-- Python truthiness of `booking.get('space')` (`None` when absent). -/
def spaceTruthy : Option PyId → Bool
  | some v => v.truthy
  | none => false

/-- `spaces.append(space)` as the source performs it: appended only when the
`space` value is truthy. -/
def appended (l : List PyId) (sp : Option PyId) : List PyId :=
  match sp with
  | some v => if v.truthy then l ++ [v] else l
  | none => l

/-- Lines 136-141 of the source: read `booking.get('spaces', [])`, wrap a
bare string, and append a truthy `booking['space']`.  Returns the local
`spaces` list together with the record as it exists after the statement:
when the field held a list, Python appends to that very list in place, so
the record itself changes.  `Except.error` models the uncaught exception
raised when the field holds a value that is neither a list nor a string. -/
def normalizeSpaces (b : Booking) : Except Unit (List PyId × Booking) :=
  match b.spaces with
  | .absent => .ok (appended [] b.space, b)
  | .strVal s => .ok (appended [PyId.str s] b.space, b)
  | .listVal l =>
    let l' := appended l b.space
    .ok (l', if spaceTruthy b.space then { b with spaces := .listVal l' } else b)
  | .nullVal => .error ()

/-- `str(space_id) in [str(s) for s in spaces]`. -/
def memberAsStr (space_id : PyId) (l : List PyId) : Bool :=
  l.any (fun s => s.toStr == space_id.toStr)

/-- Lines 145-154: read the record's timestamp strings (absent keys default
to `""`), route through the trailing-Z rewrite when the start string ends in
`Z`, and parse both.  `Except.error` models any exception raised here, which
the surrounding bare `except` swallows. -/
def bookingInterval (b : Booking) : Except Unit (PyDateTime × PyDateTime) :=
  let start_str := b.start.getD ""
  let end_str := b.end_.getD ""
  if endsWithZ start_str then
    match fromisoformat (pyReplaceZ start_str), fromisoformat (pyReplaceZ end_str) with
    | some bs, some be => .ok (bs, be)
    | _, _ => .error ()
  else
    match fromisoformat start_str, fromisoformat end_str with
    | some bs, some be => .ok (bs, be)
    | _, _ => .error ()

/-- The whole `try` body for one record (lines 144-160): parse the interval
and evaluate `target_start < booking_end and target_end > booking_start`
left to right.  The result is `true` exactly when the source executes
`return False`; a parse failure or a naive/aware comparison TypeError is
swallowed by the bare `except`, i.e. yields `false` (record skipped). -/
def triedOverlap (ts te : PyDateTime) (b : Booking) : Bool :=
  match bookingInterval b with
  | .error _ => false
  | .ok (bs, be) =>
    match pyLt ts be with
    | .error _ => false
    | .ok false => false
    | .ok true =>
      match pyLt bs te with
      | .error _ => false
      | .ok v => v

/-- The `for booking in bookings` loop of `space_is_free`, with the parsed
requested window.  Returns the boolean result together with the reservation
list as it exists after the call (records the loop visited may have been
mutated in place by `normalizeSpaces`). -/
def sifLoop (id : PyId) (ts te : PyDateTime) : List Booking → Except Unit (Bool × List Booking)
  | [] => .ok (true, [])
  | b :: rest =>
    match normalizeSpaces b with
    | .error e => .error e
    | .ok (l, b') =>
      if memberAsStr id l then
        if triedOverlap ts te b then .ok (false, b' :: rest)
        else (sifLoop id ts te rest).map (fun p => (p.1, b' :: p.2))
      else (sifLoop id ts te rest).map (fun p => (p.1, b' :: p.2))

/-- `space_is_free` (lines 130-162): parse the requested window (uncaught on
failure), then scan the reservations.  The returned list is the reservation
data as later callers in the same run observe it. -/
def space_is_free (space_id : PyId) (start_time end_time : String)
    (bookings : List Booking) : Except Unit (Bool × List Booking) :=
  match fromisoformat start_time, fromisoformat end_time with
  | some ts, some te => sifLoop space_id ts te bookings
  | _, _ => .error ()

/-- The boolean verdict of `space_is_free`, state dropped. -/
def freeRes (space_id : PyId) (start_time end_time : String)
    (bookings : List Booking) : Except Unit Bool :=
  (space_is_free space_id start_time end_time bookings).map (fun p => p.1)

/-- `true` exactly when `space_is_free` returns normally with `True`. -/
def freeB (space_id : PyId) (start_time end_time : String)
    (bookings : List Booking) : Bool :=
  match space_is_free space_id start_time end_time bookings with
  | .ok (true, _) => true
  | _ => false

/-- The membership verdict one record contributes for a target id: the
normalization outcome mapped through the string-cast membership test. -/
def memb (id : PyId) (b : Booking) : Except Unit Bool :=
  (normalizeSpaces b).map (fun p => memberAsStr id p.1)

/-- Two records the checker cannot tell apart: same timestamp strings and
the same membership verdict for every target id. -/
def obsEq (a b : Booking) : Prop :=
  a.start = b.start ∧ a.end_ = b.end_ ∧ ∀ id, memb id a = memb id b

/-- Outcome of the HTTP POST issued by `book_space`: a response with a
status code, or a raised transport exception. -/
inductive BookResp where
  | status (code : Nat)
  | raised

/-- The value `book_space` returns: the space id on a 200, Python `False`
on everything else. -/
inductive BookRet where
  | ok (id : PyId)
  | fail
deriving DecidableEq, Repr

/-- Python truthiness of the value `book_space` returned, as tested by
`if result:` in `run`. -/
def BookRet.truthy : BookRet → Bool
  | .ok id => id.truthy
  | .fail => false

/-- `book_space` (lines 164-224): 200 returns the space id; a 422 (with or
without a parsable error body), any other status, and a raised transport
exception all log and return `False`. -/
def book_space (resp : BookResp) (space_id : PyId) : BookRet :=
  match resp with
  | .status code =>
    if code == 200 then .ok space_id
    else if code == 422 then .fail
    else .fail
  | .raised => .fail

/-- Outcome of the HTTP GET issued by `get_bookings`: a response carrying a
status code and the `bookings` array of its JSON body (already defaulted to
`[]` when the key is absent), or a raised transport exception. -/
inductive FetchResp where
  | status (code : Nat) (bookings : List Booking)
  | raised

/-- `get_bookings` (lines 105-128): the bookings list on a 200, `None` on a
401 (auth expired), any other status, or a raised exception. -/
def get_bookings (resp : FetchResp) : Option (List Booking) :=
  match resp with
  | .status code bs =>
    if code == 200 then some bs
    else if code == 401 then none
    else none
  | .raised => none

/-- One configured candidate: a key/value pair of `self.spaces`, iterated
in insertion order. -/
structure Candidate where
  id : PyId
  name : String
deriving DecidableEq, Repr

/-- Externally visible interactions of one run: an availability check of a
candidate against the fetched reservations, and a booking submission for a
candidate. -/
inductive Ev where
  | checked (id : PyId)
  | attempted (id : PyId)
deriving DecidableEq, Repr

/-- The external collaborators of one run: the reservation-list response
and, per space id, the booking-submission response. -/
structure Env where
  fetch : FetchResp
  book : PyId → BookResp

/-- Overall outcome of `run`: `(False, "couldn't get bookings")`,
`(space_id, "booked <name>")`, or `(False, "all N spaces taken")`. -/
inductive RunRet where
  | fetchFailed
  | booked (id : PyId) (name : String)
  | exhausted (n : Nat)
deriving DecidableEq, Repr

/-- The `for i, (space_id, space_name) in enumerate(...)` loop of `run`
(lines 239-251), threading the reservation list (mutated in place by
`space_is_free`) and recording the interaction trace.  `some (id, name)`
is the early `return result, f"booked {space_name}"`. -/
def runLoop (book : PyId → BookResp) (start_dt end_dt : String) :
    List Candidate → List Booking → List Ev →
    Except Unit (Option (PyId × String) × List Ev)
  | [], _, evs => .ok (none, evs)
  | c :: rest, bookings, evs =>
    match space_is_free c.id start_dt end_dt bookings with
    | .error e => .error e
    | .ok (free, bookings') =>
      if free then
        let r := book_space (book c.id) c.id
        if r.truthy then .ok (some (c.id, c.name), evs ++ [.checked c.id, .attempted c.id])
        else runLoop book start_dt end_dt rest bookings' (evs ++ [.checked c.id, .attempted c.id])
      else runLoop book start_dt end_dt rest bookings' (evs ++ [.checked c.id])

/-- `run` (lines 226-254): build the window strings, fetch the day's
reservations (aborting on failure), then walk the candidates. -/
def run (env : Env) (spaces : List Candidate)
    (date start_time end_time : String) : Except Unit (RunRet × List Ev) :=
  let start_dt := date ++ "T" ++ start_time
  let end_dt := date ++ "T" ++ end_time
  match get_bookings env.fetch with
  | none => .ok (.fetchFailed, [])
  | some bookings =>
    match runLoop env.book start_dt end_dt spaces bookings [] with
    | .error e => .error e
    | .ok (some (id, name), evs) => .ok (.booked id name, evs)
    | .ok (none, evs) => .ok (.exhausted spaces.length, evs)

/-- The trace an exhausted run produces, computed from the initially
fetched reservations: every candidate is checked once in configured order,
and additionally attempted exactly when it was found free. -/
def expectedEvs (start_dt end_dt : String) (bookings0 : List Booking) :
    List Candidate → List Ev
  | [] => []
  | c :: rest =>
    (if freeB c.id start_dt end_dt bookings0
     then [Ev.checked c.id, Ev.attempted c.id]
     else [Ev.checked c.id]) ++ expectedEvs start_dt end_dt bookings0 rest

/-- The ids of the availability checks in a trace, in order. -/
def checkedIds : List Ev → List PyId
  | [] => []
  | .checked id :: rest => id :: checkedIds rest
  | .attempted _ :: rest => checkedIds rest

/-- The verdict of the `space_is_free` scan with the state bookkeeping
stripped; proved below to agree with `space_is_free`. -/
def sifRes (id : PyId) (ts te : PyDateTime) : List Booking → Except Unit Bool
  | [] => .ok true
  | b :: rest =>
    match normalizeSpaces b with
    | .error e => .error e
    | .ok (l, _) =>
      if memberAsStr id l then
        if triedOverlap ts te b then .ok false else sifRes id ts te rest
      else sifRes id ts te rest

/-- Fixture: a reservation blocking space `"1"` from 09:00 to 10:00 with
offset-naive timestamps. -/
def resNaive : Booking :=
  ⟨.listVal [.str "1"], none, some "2025-01-01T09:00:00", some "2025-01-01T10:00:00"⟩

/-- Fixture: a reservation blocking space `"1"` from 09:00 to 10:00 with
trailing-Z timestamps. -/
def resZulu : Booking :=
  ⟨.listVal [.str "1"], none, some "2025-01-01T09:00:00Z", some "2025-01-01T10:00:00Z"⟩

/-- Fixture: a reservation with both a `spaces` list and a truthy `space`
field, the shape on which the source appends in place. -/
def resAliased : Booking :=
  ⟨.listVal [.str "2"], some (.str "1"), some "2025-01-01T09:00:00", some "2025-01-01T10:00:00"⟩

/-- Fixture: a reservation whose `spaces` field is JSON null while a
`space` field is present. -/
def resNullSpaces : Booking :=
  ⟨.nullVal, some (.str "1"), some "2025-01-01T09:00:00", some "2025-01-01T10:00:00"⟩

/-- Fixture: a reservation blocking space `"1"` whose timestamps do not
parse. -/
def resMalformed : Booking :=
  ⟨.listVal [.str "1"], none, some "not-a-time", some "also-bad"⟩

end Skedda

namespace Skedda

/-- Dpropping the state after consing a visited record commutes with
taking the verdict. -/
theorem mapFst_consState (e : Except Unit (Bool × List Booking)) (x : Booking) :
    (e.map (fun p => (p.1, x :: p.2))).map (fun p => p.1) = e.map (fun p => p.1) := by
  cases e <;> rfl

/-- The verdict of the scan loop ignores the state it threads. -/
theorem sifLoop_fst (id : PyId) (ts te : PyDateTime) (bs : List Booking) :
    (sifLoop id ts te bs).map (fun p => p.1) = sifRes id ts te bs := by
  induction bs with
  | nil => rfl
  | cons b rest ih =>
    simp only [sifLoop, sifRes]
    cases hn : normalizeSpaces b with
    | error e => rfl
    | ok p =>
      obtain ⟨l, b'⟩ := p
      cases hm : memberAsStr id l with
      | false => simpa [hm, mapFst_consState] using ih
      | true =>
        cases ho : triedOverlap ts te b with
        | false => simpa [hm, ho, mapFst_consState] using ih
        | true => simp [hm, ho, Except.map]

/-- `freeRes` through the parsed requested window. -/
theorem freeRes_eq (id : PyId) {rs re : String} {ts te : PyDateTime}
    (bs : List Booking)
    (h1 : fromisoformat rs = some ts) (h2 : fromisoformat re = some te) :
    freeRes id rs re bs = sifRes id ts te bs := by
  unfold freeRes space_is_free
  rw [h1, h2]
  exact sifLoop_fst id ts te bs

end Skedda

namespace Skedda

/-- `obsEq` is reflexive. -/
theorem obsEq_refl (b : Booking) : obsEq b b := ⟨rfl, rfl, fun _ => rfl⟩

/-- `obsEq` is transitive. -/
theorem obsEq_trans {a b c : Booking} (h1 : obsEq a b) (h2 : obsEq b c) : obsEq a c :=
  ⟨h1.1.trans h2.1, h1.2.1.trans h2.2.1, fun id => (h1.2.2 id).trans (h2.2.2 id)⟩

/-- Pointwise `obsEq` is reflexive on lists. -/
theorem forall2_obsEq_refl (l : List Booking) : List.Forall₂ obsEq l l := by
  induction l with
  | nil => exact .nil
  | cons b rest ih => exact .cons (obsEq_refl b) ih

/-- Pointwise `obsEq` is transitive on lists. -/
theorem forall2_obsEq_trans : ∀ {as bs cs : List Booking},
    List.Forall₂ obsEq as bs → List.Forall₂ obsEq bs cs → List.Forall₂ obsEq as cs := by
  intro as bs cs h1 h2
  induction h1 generalizing cs with
  | nil => cases h2; exact .nil
  | cons hab htail ih =>
    cases h2 with
    | cons hbc htail2 => exact .cons (obsEq_trans hab hbc) (ih htail2)

/-- The interval a record denotes depends only on its timestamp strings. -/
theorem bookingInterval_congr {a b : Booking}
    (hs : a.start = b.start) (he : a.end_ = b.end_) :
    bookingInterval a = bookingInterval b := by
  unfold bookingInterval
  rw [hs, he]

/-- One normalization step leaves a record observationally unchanged: the
appended duplicate of the `space` value never changes a membership verdict,
and the timestamps are untouched. -/
theorem normalize_obsEq {b : Booking} {l : List PyId} {b' : Booking}
    (hn : normalizeSpaces b = .ok (l, b')) : obsEq b b' := by
  cases hsp : b.spaces with
  | absent =>
    unfold normalizeSpaces at hn
    rw [hsp] at hn
    cases hn
    exact obsEq_refl b
  | strVal s =>
    unfold normalizeSpaces at hn
    rw [hsp] at hn
    cases hn
    exact obsEq_refl b
  | nullVal =>
    unfold normalizeSpaces at hn
    rw [hsp] at hn
    cases hn
  | listVal l0 =>
    unfold normalizeSpaces at hn
    rw [hsp] at hn
    cases hst : spaceTruthy b.space with
    | false =>
      rw [hst] at hn
      simp only [if_false] at hn
      cases hn
      exact obsEq_refl b
    | true =>
      rw [hst] at hn
      simp only [if_true] at hn
      cases hn
      obtain ⟨v, hv, hvt⟩ : ∃ v, b.space = some v ∧ v.truthy = true := by
        cases hsub : b.space with
        | none => rw [hsub] at hst; simp [spaceTruthy] at hst
        | some v => exact ⟨v, rfl, by rw [hsub] at hst; simpa [spaceTruthy] using hst⟩
      refine ⟨rfl, rfl, fun id => ?_⟩
      simp only [memb, normalizeSpaces, hsp, hv, hvt, spaceTruthy, appended, if_true]
      simp [Except.map, memberAsStr, List.any_append, List.any_cons, Bool.or_assoc, Bool.or_self]

end Skedda

namespace Skedda

/-- The scan verdict respects observational equivalence of the records. -/
theorem sifRes_congr (id : PyId) (ts te : PyDateTime) :
    ∀ {as bs : List Booking}, List.Forall₂ obsEq as bs →
      sifRes id ts te as = sifRes id ts te bs := by
  intro as bs h
  induction h with
  | nil => rfl
  | @cons a b as' bs' hab htail ih =>
    obtain ⟨hs, he, hm⟩ := hab
    have hmemb := hm id
    simp only [sifRes]
    cases hna : normalizeSpaces a with
    | error e =>
      cases hnb : normalizeSpaces b with
      | error e2 => cases e; cases e2; rfl
      | ok q => simp [memb, hna, hnb, Except.map] at hmemb
    | ok p =>
      obtain ⟨la, a'⟩ := p
      cases hnb : normalizeSpaces b with
      | error e2 => simp [memb, hna, hnb, Except.map] at hmemb
      | ok q =>
        obtain ⟨lb, b'⟩ := q
        have hmm : memberAsStr id la = memberAsStr id lb := by
          simpa [memb, hna, hnb, Except.map] using hmemb
        have hov : triedOverlap ts te a = triedOverlap ts te b := by
          unfold triedOverlap
          rw [bookingInterval_congr hs he]
        dsimp only
        rw [hmm, hov]
        cases hmb : memberAsStr id lb <;> cases hob : triedOverlap ts te b <;>
          simp [hmb, hob, ih]

/-- The state `space_is_free` hands back is pointwise observationally
equivalent to the state it was given. -/
theorem sifLoop_state (id : PyId) (ts te : PyDateTime) :
    ∀ {bs : List Booking} {r : Bool} {bs' : List Booking},
      sifLoop id ts te bs = .ok (r, bs') → List.Forall₂ obsEq bs bs' := by
  intro bs
  induction bs with
  | nil =>
    intro r bs' h
    simp only [sifLoop, Except.ok.injEq, Prod.mk.injEq] at h
    rw [← h.2]
    exact .nil
  | cons b rest ih =>
    intro r bs' h
    simp only [sifLoop] at h
    cases hn : normalizeSpaces b with
    | error e => rw [hn] at h; exact absurd h (by simp)
    | ok p =>
      obtain ⟨l, b'⟩ := p
      rw [hn] at h
      cases hm : memberAsStr id l with
      | true =>
        cases ho : triedOverlap ts te b with
        | true =>
          simp only [hm, ho, if_true, Except.ok.injEq, Prod.mk.injEq] at h
          rw [← h.2]
          exact .cons (normalize_obsEq hn) (forall2_obsEq_refl rest)
        | false =>
          simp only [hm, ho, if_true, if_false, Bool.false_eq_true] at h
          cases hrec : sifLoop id ts te rest with
          | error e => rw [hrec] at h; exact absurd h (by simp [Except.map])
          | ok p2 =>
            obtain ⟨r2, rest2⟩ := p2
            rw [hrec] at h
            simp only [Except.map, Except.ok.injEq, Prod.mk.injEq] at h
            rw [← h.2]
            exact .cons (normalize_obsEq hn) (ih hrec)
      | false =>
        simp only [hm, Bool.false_eq_true, if_false] at h
        cases hrec : sifLoop id ts te rest with
        | error e => rw [hrec] at h; exact absurd h (by simp [Except.map])
        | ok p2 =>
          obtain ⟨r2, rest2⟩ := p2
          rw [hrec] at h
          simp only [Except.map, Except.ok.injEq, Prod.mk.injEq] at h
          rw [← h.2]
          exact .cons (normalize_obsEq hn) (ih hrec)

/-- The verdict of `space_is_free` respects observational equivalence. -/
theorem freeRes_congr (id : PyId) (sdt edt : String) {as bs : List Booking}
    (h : List.Forall₂ obsEq as bs) :
    freeRes id sdt edt as = freeRes id sdt edt bs := by
  unfold freeRes space_is_free
  cases h1 : fromisoformat sdt with
  | none => simp
  | some ts =>
    cases h2 : fromisoformat edt with
    | none => simp
    | some te =>
      simp only
      rw [sifLoop_fst, sifLoop_fst]
      exact sifRes_congr id ts te h

end Skedda

namespace Skedda

/-- When both comparisons are between datetimes of like awareness, the
`try` body computes exactly the strict-overlap conjunction. -/
theorem triedOverlap_eval (ts te bs be : PyDateTime) (b : Booking)
    (h7 : bookingInterval b = .ok (bs, be))
    (ha1 : ts.aware = be.aware) (ha2 : bs.aware = te.aware) :
    triedOverlap ts te b =
      (decide (ts.value < be.value) && decide (bs.value < te.value)) := by
  unfold triedOverlap
  rw [h7]
  dsimp only
  unfold pyLt
  rw [ha1, ha2]
  simp only [beq_self_eq_true, if_true]
  cases hd : decide (ts.value < be.value) with
  | false => simp
  | true => simp

/-- A record that is either non-blocking or skipped by the `try` body
leaves the scan verdict exactly as if it were absent. -/
theorem sifRes_skip (id : PyId) (ts te : PyDateTime)
    (l1 : List Booking) (b : Booking) (l2 : List Booking)
    (l : List PyId) (b' : Booking)
    (hn : normalizeSpaces b = .ok (l, b'))
    (hskip : memberAsStr id l = false ∨ triedOverlap ts te b = false) :
    sifRes id ts te (l1 ++ b :: l2) = sifRes id ts te (l1 ++ l2) := by
  induction l1 with
  | nil =>
    simp only [List.nil_append, sifRes]
    rw [hn]
    dsimp only
    rcases hskip with hm | ho
    · simp [hm]
    · cases hm : memberAsStr id l with
      | false => simp [hm]
      | true => simp [hm, ho]
  | cons b1 rest ih =>
    simp only [List.cons_append, sifRes]
    cases hn1 : normalizeSpaces b1 with
    | error e => rfl
    | ok p =>
      obtain ⟨l1', b1'⟩ := p
      dsimp only
      simp only [List.append_eq]
      rw [ih]

end Skedda

namespace Skedda

/-- C1: for a requested half-open window and a reservation that blocks the
target resource, with all four timestamps parsing in the offset-free form,
`space_is_free` answers `False` exactly when the intervals strictly
overlap (`rs < be` and `bs < re`); boundary-touching reservations leave
the resource free. -/
theorem claim1_half_open_overlap (id : PyId) (rs re : String)
    (ts te bs be : PyDateTime) (b : Booking) (l : List PyId) (b' : Booking)
    (h1 : fromisoformat rs = some ts) (h2 : fromisoformat re = some te)
    (h3 : ts.aware = false) (h4 : te.aware = false)
    (h5 : normalizeSpaces b = .ok (l, b')) (h6 : memberAsStr id l = true)
    (h7 : bookingInterval b = .ok (bs, be))
    (h8 : bs.aware = false) (h9 : be.aware = false) :
    (freeRes id rs re [b] = .ok false ↔ (ts.value < be.value ∧ bs.value < te.value)) ∧
    (freeRes id rs re [b] = .ok true ↔ ¬(ts.value < be.value ∧ bs.value < te.value)) := by
  have hfr : freeRes id rs re [b] = sifRes id ts te [b] := freeRes_eq id [b] h1 h2
  have hsing : sifRes id ts te [b] =
      if triedOverlap ts te b then .ok false else .ok true := by
    simp [sifRes, h5, h6]
  rw [triedOverlap_eval ts te bs be b h7 (by rw [h3, h9]) (by rw [h8, h4])] at hsing
  by_cases hov : ts.value < be.value ∧ bs.value < te.value
  · have hb : (decide (ts.value < be.value) && decide (bs.value < te.value)) = true := by
      simp [hov.1, hov.2]
    rw [hb] at hsing
    simp at hsing
    constructor
    · rw [hfr, hsing]; simp [hov]
    · rw [hfr, hsing]; simp [hov]
  · have hb : (decide (ts.value < be.value) && decide (bs.value < te.value)) = false := by
      rcases not_and_or.mp hov with h | h <;> simp [h]
    rw [hb] at hsing
    simp at hsing
    constructor
    · rw [hfr, hsing]; simp [hov]
    · rw [hfr, hsing]; simp [hov]

/-- C1 witness: the fixture reservation 09:00-10:00 against the requested
window 08:30-17:00. -/
theorem claim1_half_open_overlap_witness :
    (freeRes (PyId.str "1") "2025-01-01T08:30:00" "2025-01-01T17:00:00" [resNaive]
        = .ok false ↔
      ((1735720200000000 : Int) < 1735725600000000 ∧
        (1735722000000000 : Int) < 1735750800000000)) ∧
    (freeRes (PyId.str "1") "2025-01-01T08:30:00" "2025-01-01T17:00:00" [resNaive]
        = .ok true ↔
      ¬((1735720200000000 : Int) < 1735725600000000 ∧
        (1735722000000000 : Int) < 1735750800000000)) :=
  claim1_half_open_overlap (PyId.str "1") "2025-01-01T08:30:00" "2025-01-01T17:00:00"
    ⟨1735720200000000, false⟩ ⟨1735750800000000, false⟩
    ⟨1735722000000000, false⟩ ⟨1735725600000000, false⟩
    resNaive [PyId.str "1"] resNaive
    (by decide) (by decide) rfl rfl (by decide) (by decide) (by decide) rfl rfl

end Skedda

namespace Skedda

/-- C3 counterexample: a reservation that blocks the target resource with
trailing-Z timestamps whose zero-offset interval overlaps the requested
window, yet `space_is_free` answers `True`: the offset-aware parsed values
cannot be compared with the offset-naive requested window, the TypeError is
swallowed by the bare `except`, and the record is skipped. -/
theorem claim3_zulu_cex :
    freeRes (PyId.str "1") "2025-01-01T08:30:00" "2025-01-01T17:00:00" [resZulu]
      = .ok true ∧
    memb (PyId.str "1") resZulu = .ok true ∧
    bookingInterval resZulu
      = .ok (⟨1735722000000000, true⟩, ⟨1735725600000000, true⟩) ∧
    fromisoformat "2025-01-01T08:30:00" = some ⟨1735720200000000, false⟩ ∧
    fromisoformat "2025-01-01T17:00:00" = some ⟨1735750800000000, false⟩ ∧
    (1735720200000000 : Int) < 1735725600000000 ∧
    (1735722000000000 : Int) < 1735750800000000 := by
  decide

/-- C3 amended: a trailing-Z reservation is parsed with the marker treated
as a zero offset, and it does participate in the overlap test whenever the
requested window itself parses offset-aware: if it blocks the target and
overlaps, `space_is_free` answers `False`. -/
theorem claim3_zulu_included_when_aware (id : PyId) (rs re : String)
    (ts te bs be : PyDateTime) (b : Booking) (l : List PyId) (b' : Booking)
    (h1 : fromisoformat rs = some ts) (h2 : fromisoformat re = some te)
    (h3 : ts.aware = true) (h4 : te.aware = true)
    (_hz : endsWithZ (b.start.getD "") = true)
    (h5 : normalizeSpaces b = .ok (l, b')) (h6 : memberAsStr id l = true)
    (h7 : bookingInterval b = .ok (bs, be))
    (h8 : bs.aware = true) (h9 : be.aware = true)
    (hov : ts.value < be.value ∧ bs.value < te.value) :
    freeRes id rs re [b] = .ok false := by
  have hfr : freeRes id rs re [b] = sifRes id ts te [b] := freeRes_eq id [b] h1 h2
  have hsing : sifRes id ts te [b] =
      if triedOverlap ts te b then .ok false else .ok true := by
    simp [sifRes, h5, h6]
  rw [triedOverlap_eval ts te bs be b h7 (by rw [h3, h9]) (by rw [h8, h4])] at hsing
  rw [hfr, hsing]
  simp [hov.1, hov.2]

/-- C3 witness: the Z-marked fixture against an offset-aware window. -/
theorem claim3_zulu_included_witness :
    freeRes (PyId.str "1") "2025-01-01T08:30:00+00:00" "2025-01-01T17:00:00+00:00"
      [resZulu] = .ok false :=
  claim3_zulu_included_when_aware (PyId.str "1")
    "2025-01-01T08:30:00+00:00" "2025-01-01T17:00:00+00:00"
    ⟨1735720200000000, true⟩ ⟨1735750800000000, true⟩
    ⟨1735722000000000, true⟩ ⟨1735725600000000, true⟩
    resZulu [PyId.str "1"] resZulu
    (by decide) (by decide) rfl rfl (by decide) (by decide) (by decide) (by decide)
    rfl rfl (by decide)

/-- C7: a reservation that blocks the target resource but whose timestamps
fail to parse contributes nothing: the verdict equals the verdict on the
list with that record removed, in particular the check completes rather
than failing whenever the rest of it would. -/
theorem claim7_malformed_reservation_skipped (id : PyId) (rs re : String)
    (l1 l2 : List Booking) (b : Booking) (l : List PyId) (b' : Booking)
    (hn : normalizeSpaces b = .ok (l, b'))
    (_hmem : memberAsStr id l = true)
    (hbad : bookingInterval b = .error ()) :
    freeRes id rs re (l1 ++ b :: l2) = freeRes id rs re (l1 ++ l2) := by
  unfold freeRes space_is_free
  cases h1 : fromisoformat rs with
  | none => simp
  | some ts =>
    cases h2 : fromisoformat re with
    | none => simp
    | some te =>
      simp only
      rw [sifLoop_fst, sifLoop_fst]
      refine sifRes_skip id ts te l1 b l2 l b' hn (Or.inr ?_)
      unfold triedOverlap
      rw [hbad]

/-- C7 witness: the unparsable fixture record amid an otherwise useful
list. -/
theorem claim7_malformed_skipped_witness :
    freeRes (PyId.str "1") "2025-01-01T08:30:00" "2025-01-01T17:00:00"
        ([] ++ resMalformed :: [resNaive])
      = freeRes (PyId.str "1") "2025-01-01T08:30:00" "2025-01-01T17:00:00"
        ([] ++ [resNaive]) :=
  claim7_malformed_reservation_skipped (PyId.str "1")
    "2025-01-01T08:30:00" "2025-01-01T17:00:00"
    [] [resNaive] resMalformed [PyId.str "1"] resMalformed
    (by decide) (by decide) (by decide)

/-- C8: a reservation whose effective blocked-resource set does not contain
the target id (string-cast membership) never affects the verdict, whatever
its interval: the verdict equals the verdict with the record removed. -/
theorem claim8_nonblocking_irrelevant (id : PyId) (rs re : String)
    (l1 l2 : List Booking) (b : Booking) (l : List PyId) (b' : Booking)
    (hn : normalizeSpaces b = .ok (l, b'))
    (hmem : memberAsStr id l = false) :
    freeRes id rs re (l1 ++ b :: l2) = freeRes id rs re (l1 ++ l2) := by
  unfold freeRes space_is_free
  cases h1 : fromisoformat rs with
  | none => simp
  | some ts =>
    cases h2 : fromisoformat re with
    | none => simp
    | some te =>
      simp only
      rw [sifLoop_fst, sifLoop_fst]
      exact sifRes_skip id ts te l1 b l2 l b' hn (Or.inl hmem)

/-- C8 witness: the fixture reservation blocks `"1"` and overlaps the
window, but the target is `"9"`. -/
theorem claim8_nonblocking_witness :
    freeRes (PyId.str "9") "2025-01-01T08:30:00" "2025-01-01T17:00:00"
        ([] ++ resNaive :: [])
      = freeRes (PyId.str "9") "2025-01-01T08:30:00" "2025-01-01T17:00:00"
        ([] ++ []) :=
  claim8_nonblocking_irrelevant (PyId.str "9")
    "2025-01-01T08:30:00" "2025-01-01T17:00:00"
    [] [] resNaive [PyId.str "1"] resNaive
    (by decide) (by decide)

end Skedda

namespace Skedda

/-- C9 (code behavior at the failing input): `space_is_free` hands back the
reservation list with the visited record changed in place, the `space`
value having been appended to its `spaces` list, even though the record did
not even block the requested resource. -/
theorem claim9_mutation_eval :
    space_is_free (PyId.str "3") "2025-01-01T08:30:00" "2025-01-01T17:00:00"
        [resAliased]
      = .ok (true,
          [{ resAliased with spaces := SpacesField.listVal [PyId.str "2", PyId.str "1"] }]) ∧
    ({ resAliased with spaces := SpacesField.listVal [PyId.str "2", PyId.str "1"] })
      ≠ resAliased := by
  decide

/-- C10: a record whose `spaces` field is JSON null while a `space` field
is present makes `space_is_free` raise instead of skipping the record: the
spaces normalization runs before the `try` that guards timestamp parsing
and comparison. -/
theorem claim10_null_spaces_raises (id : PyId) (st et : String)
    (b : Booking) (rest : List Booking) (sp : PyId)
    (h1 : (fromisoformat st).isSome = true) (h2 : (fromisoformat et).isSome = true)
    (h3 : b.spaces = SpacesField.nullVal) (_h4 : b.space = some sp) :
    space_is_free id st et (b :: rest) = .error () := by
  obtain ⟨ts, hts⟩ := Option.isSome_iff_exists.mp h1
  obtain ⟨te, hte⟩ := Option.isSome_iff_exists.mp h2
  have hnb : normalizeSpaces b = .error () := by
    unfold normalizeSpaces
    rw [h3]
  unfold space_is_free
  rw [hts, hte]
  simp only [sifLoop]
  rw [hnb]

/-- C10 witness: the null-`spaces` fixture with a present `space` field. -/
theorem claim10_null_spaces_witness :
    space_is_free (PyId.str "1") "2025-01-01T08:30:00" "2025-01-01T17:00:00"
      [resNullSpaces] = .error () :=
  claim10_null_spaces_raises (PyId.str "1")
    "2025-01-01T08:30:00" "2025-01-01T17:00:00"
    resNullSpaces [] (PyId.str "1")
    (by decide) (by decide) rfl rfl

/-- C4: when the reservation fetch fails with any non-200 status (401
included) or a raised transport error, `run` returns the fetch-failure
outcome at once and no candidate is checked or contacted. -/
theorem claim4_fetch_failure_aborts (env : Env) (spaces : List Candidate)
    (date st et : String)
    (h : ∀ code bs, env.fetch = FetchResp.status code bs → code ≠ 200) :
    run env spaces date st et = .ok (.fetchFailed, []) := by
  have hgb : get_bookings env.fetch = none := by
    cases hf : env.fetch with
    | status code bs =>
      have hne := h code bs hf
      simp [get_bookings, hne]
    | raised => rfl
  simp [run, hgb]

/-- C4 witness: a simulated 401 with one configured candidate. -/
theorem claim4_fetch_failure_witness :
    run { fetch := FetchResp.status 401 [resNaive], book := fun _ => BookResp.raised }
      [⟨PyId.str "1", "Desk A"⟩] "2025-01-01" "08:30:00" "17:00:00"
      = .ok (.fetchFailed, []) :=
  claim4_fetch_failure_aborts _ _ _ _ _
    (fun code bs hf => by injection hf with h1 h2; rw [← h1]; decide)

end Skedda

namespace Skedda

/-- C2 counterexample: every booking submission in this run is acknowledged
with a 200, and the first candidate is free, yet `run` does not stop there:
because `run` tests the Python truthiness of the value `book_space`
returned, a 200 acknowledgment for the falsy (empty-string) resource id is
misread as a failure, and the second candidate is checked and booked. -/
theorem claim2_stops_cex :
    run { fetch := FetchResp.status 200 [], book := fun _ => BookResp.status 200 }
      [⟨PyId.str "", "Desk A"⟩, ⟨PyId.str "2", "Desk B"⟩]
      "2025-01-01" "08:30:00" "17:00:00"
      = .ok (.booked (PyId.str "2") "Desk B",
          [.checked (PyId.str ""), .attempted (PyId.str ""),
           .checked (PyId.str "2"), .attempted (PyId.str "2")]) := by
  decide

/-- C2 amended: whenever the loop reaches a candidate that is free, whose
submission is acknowledged with a 200, and whose resource id is truthy,
`run` returns the booked outcome for that candidate at once: the trace ends
with that candidate's check and attempt, so no later candidate is checked
or contacted, regardless of the remaining list. -/
theorem claim2_stops_on_first_truthy_success (book : PyId → BookResp)
    (sdt edt : String) (c : Candidate) (rest : List Candidate)
    (bookings bookings' : List Booking) (evs : List Ev)
    (hfree : space_is_free c.id sdt edt bookings = .ok (true, bookings'))
    (hbook : book c.id = .status 200)
    (htruthy : c.id.truthy = true) :
    runLoop book sdt edt (c :: rest) bookings evs
      = .ok (some (c.id, c.name), evs ++ [.checked c.id, .attempted c.id]) := by
  simp [runLoop, hfree, book_space, hbook, BookRet.truthy, htruthy]

/-- C2 witness: first candidate free and truthy, a second candidate
remains unseen. -/
theorem claim2_stops_witness :
    runLoop (fun _ => BookResp.status 200) "2025-01-01T08:30:00" "2025-01-01T17:00:00"
      [⟨PyId.str "1", "Desk A"⟩, ⟨PyId.str "2", "Desk B"⟩] [] []
      = .ok (some (PyId.str "1", "Desk A"),
          [.checked (PyId.str "1"), .attempted (PyId.str "1")]) :=
  claim2_stops_on_first_truthy_success (fun _ => BookResp.status 200)
    "2025-01-01T08:30:00" "2025-01-01T17:00:00"
    ⟨PyId.str "1", "Desk A"⟩ [⟨PyId.str "2", "Desk B"⟩] [] [] []
    (by decide) rfl (by decide)

/-- C6: a failed booking attempt, whether a raised transport error or any
non-200 response (422 validation rejections included), is local to its
candidate: the loop continues with the remaining candidates instead of
terminating. -/
theorem claim6_booking_failure_is_local (book : PyId → BookResp)
    (sdt edt : String) (c : Candidate) (rest : List Candidate)
    (bookings bookings' : List Booking) (evs : List Ev)
    (hfree : space_is_free c.id sdt edt bookings = .ok (true, bookings'))
    (hfail : book c.id = .raised ∨ ∃ code, code ≠ 200 ∧ book c.id = .status code) :
    runLoop book sdt edt (c :: rest) bookings evs
      = runLoop book sdt edt rest bookings' (evs ++ [.checked c.id, .attempted c.id]) := by
  have ht : (book_space (book c.id) c.id).truthy = false := by
    rcases hfail with h | ⟨code, hcode, h⟩
    · rw [h]; rfl
    · rw [h]
      unfold book_space
      dsimp only
      rw [if_neg (by simpa using hcode)]
      cases hc : (code == 422) <;> simp [hc, BookRet.truthy]
  simp [runLoop, hfree, ht]

/-- C6 witness: a 422 rejection hands control to the rest of the loop. -/
theorem claim6_booking_failure_witness :
    runLoop (fun _ => BookResp.status 422) "2025-01-01T08:30:00" "2025-01-01T17:00:00"
      [⟨PyId.str "1", "Desk A"⟩, ⟨PyId.str "2", "Desk B"⟩] [] []
      = runLoop (fun _ => BookResp.status 422) "2025-01-01T08:30:00" "2025-01-01T17:00:00"
        [⟨PyId.str "2", "Desk B"⟩] []
        [.checked (PyId.str "1"), .attempted (PyId.str "1")] :=
  claim6_booking_failure_is_local (fun _ => BookResp.status 422)
    "2025-01-01T08:30:00" "2025-01-01T17:00:00"
    ⟨PyId.str "1", "Desk A"⟩ [⟨PyId.str "2", "Desk B"⟩] [] [] []
    (by decide) (Or.inr ⟨422, by decide, rfl⟩)

end Skedda

namespace Skedda

/-- A `False` verdict means the candidate is not reported free. -/
theorem freeB_false {id : PyId} {sdt edt : String} {bs : List Booking}
    (h : freeRes id sdt edt bs = .ok false) : freeB id sdt edt bs = false := by
  unfold freeB
  cases hsf : space_is_free id sdt edt bs with
  | error e => rfl
  | ok p =>
    obtain ⟨r, st⟩ := p
    unfold freeRes at h
    rw [hsf] at h
    simp only [Except.map, Except.ok.injEq] at h
    subst h
    rfl

/-- A `True` verdict means the candidate is reported free. -/
theorem freeB_true {id : PyId} {sdt edt : String} {bs : List Booking}
    (h : freeRes id sdt edt bs = .ok true) : freeB id sdt edt bs = true := by
  unfold freeB
  cases hsf : space_is_free id sdt edt bs with
  | error e =>
    unfold freeRes at h
    rw [hsf] at h
    exact absurd h (by simp [Except.map])
  | ok p =>
    obtain ⟨r, st⟩ := p
    unfold freeRes at h
    rw [hsf] at h
    simp only [Except.map, Except.ok.injEq] at h
    subst h
    rfl

/-- A normal verdict comes with the state the call hands back. -/
theorem space_is_free_of_freeRes {id : PyId} {sdt edt : String}
    {bs : List Booking} {r : Bool}
    (h : freeRes id sdt edt bs = .ok r) :
    ∃ st, space_is_free id sdt edt bs = .ok (r, st) := by
  unfold freeRes at h
  cases hsf : space_is_free id sdt edt bs with
  | error e =>
    rw [hsf] at h
    exact absurd h (by simp [Except.map])
  | ok p =>
    obtain ⟨r2, st⟩ := p
    rw [hsf] at h
    simp only [Except.map, Except.ok.injEq] at h
    exact ⟨st, by rw [h]⟩

/-- The reservation list `space_is_free` hands back is pointwise
observationally equivalent to the one it was given. -/
theorem space_is_free_state {id : PyId} {sdt edt : String}
    {bs : List Booking} {r : Bool} {bs' : List Booking}
    (h : space_is_free id sdt edt bs = .ok (r, bs')) :
    List.Forall₂ obsEq bs bs' := by
  unfold space_is_free at h
  cases h1 : fromisoformat sdt with
  | none =>
    cases h2 : fromisoformat edt <;> rw [h1, h2] at h <;> exact absurd h (by simp)
  | some ts =>
    cases h2 : fromisoformat edt with
    | none => rw [h1, h2] at h; exact absurd h (by simp)
    | some te =>
      rw [h1, h2] at h
      exact sifLoop_state id ts te h

/-- The loop under an all-fail oracle: when, judged against the fetched
list, every remaining candidate is occupied or sees its booking fail, the
loop exhausts the list and appends the expected trace. -/
theorem runLoop_exhaust (book : PyId → BookResp) (sdt edt : String)
    (bookings0 : List Booking) :
    ∀ (cands : List Candidate) (bookings : List Booking) (evs : List Ev),
      List.Forall₂ obsEq bookings0 bookings →
      (∀ c ∈ cands,
        freeRes c.id sdt edt bookings0 = .ok false ∨
        (freeRes c.id sdt edt bookings0 = .ok true ∧
          (book_space (book c.id) c.id).truthy = false)) →
      runLoop book sdt edt cands bookings evs =
        .ok (none, evs ++ expectedEvs sdt edt bookings0 cands) := by
  intro cands
  induction cands with
  | nil => intro bookings evs _ _; simp [runLoop, expectedEvs]
  | cons c rest ih =>
    intro bookings evs hfa hall
    have hc := hall c (List.mem_cons_self c rest)
    have hcur : freeRes c.id sdt edt bookings = freeRes c.id sdt edt bookings0 :=
      (freeRes_congr c.id sdt edt hfa).symm
    have htail : ∀ c' ∈ rest,
        freeRes c'.id sdt edt bookings0 = .ok false ∨
        (freeRes c'.id sdt edt bookings0 = .ok true ∧
          (book_space (book c'.id) c'.id).truthy = false) :=
      fun c' hc' => hall c' (List.mem_cons_of_mem c hc')
    rcases hc with hocc | ⟨hfree, hbf⟩
    · obtain ⟨st, hsf⟩ := space_is_free_of_freeRes (hcur.trans hocc)
      have hB : freeB c.id sdt edt bookings0 = false := freeB_false hocc
      have hnext : List.Forall₂ obsEq bookings0 st :=
        forall2_obsEq_trans hfa (space_is_free_state hsf)
      simp only [runLoop]
      rw [hsf]
      dsimp only
      rw [ih st (evs ++ [Ev.checked c.id]) hnext htail]
      simp [expectedEvs, hB, List.append_assoc]
    · obtain ⟨st, hsf⟩ := space_is_free_of_freeRes (hcur.trans hfree)
      have hB : freeB c.id sdt edt bookings0 = true := freeB_true hfree
      have hnext : List.Forall₂ obsEq bookings0 st :=
        forall2_obsEq_trans hfa (space_is_free_state hsf)
      simp only [runLoop]
      rw [hsf]
      dsimp only
      rw [if_pos rfl]
      rw [hbf]
      rw [ih st (evs ++ [Ev.checked c.id, Ev.attempted c.id]) hnext htail]
      simp [expectedEvs, hB, List.append_assoc]

/-- `checkedIds` distributes over trace concatenation. -/
theorem checkedIds_append (xs ys : List Ev) :
    checkedIds (xs ++ ys) = checkedIds xs ++ checkedIds ys := by
  induction xs with
  | nil => rfl
  | cons e rest ih => cases e <;> simp [checkedIds, ih]

/-- Each candidate is checked exactly once, in configured order, in the
expected exhausted-run trace. -/
theorem checkedIds_expectedEvs (sdt edt : String) (b0 : List Booking) :
    ∀ cands : List Candidate,
      checkedIds (expectedEvs sdt edt b0 cands) = cands.map (fun c => c.id) := by
  intro cands
  induction cands with
  | nil => rfl
  | cons c rest ih =>
    cases hB : freeB c.id sdt edt b0 <;>
      simp [expectedEvs, hB, checkedIds_append, checkedIds, ih]

end Skedda

namespace Skedda

/-- C5: when, judged against the fetched reservations, every configured
candidate is either occupied or sees its booking attempt fail, `run`
returns the exhausted outcome reporting the full configured count, its
trace is the expected one (each candidate checked once in configured
order, attempted exactly when free), and the checks are one per candidate
in insertion order. -/
theorem claim5_exhausted (env : Env) (spaces : List Candidate)
    (date st et : String) (bookings0 : List Booking)
    (hf : get_bookings env.fetch = some bookings0)
    (hall : ∀ c ∈ spaces,
      freeRes c.id (date ++ "T" ++ st) (date ++ "T" ++ et) bookings0 = .ok false ∨
      (freeRes c.id (date ++ "T" ++ st) (date ++ "T" ++ et) bookings0 = .ok true ∧
        (book_space (env.book c.id) c.id).truthy = false)) :
    run env spaces date st et =
      .ok (.exhausted spaces.length,
        expectedEvs (date ++ "T" ++ st) (date ++ "T" ++ et) bookings0 spaces) ∧
    checkedIds (expectedEvs (date ++ "T" ++ st) (date ++ "T" ++ et) bookings0 spaces) =
      spaces.map (fun c => c.id) := by
  constructor
  · simp only [run]
    rw [hf]
    dsimp only
    rw [runLoop_exhaust env.book (date ++ "T" ++ st) (date ++ "T" ++ et) bookings0
      spaces bookings0 [] (forall2_obsEq_refl bookings0) hall]
    simp
  · exact checkedIds_expectedEvs (date ++ "T" ++ st) (date ++ "T" ++ et) bookings0 spaces

/-- C5 witness: candidate `"1"` occupied by the fixture reservation and
candidate `"2"` free but rejected with a 422; the run is exhausted with
count 2 and the expected one-check-per-candidate trace. -/
theorem claim5_exhausted_witness :
    run { fetch := FetchResp.status 200 [resNaive], book := fun _ => BookResp.status 422 }
        [⟨PyId.str "1", "Desk A"⟩, ⟨PyId.str "2", "Desk B"⟩]
        "2025-01-01" "08:30:00" "17:00:00" =
      .ok (.exhausted 2,
        expectedEvs ("2025-01-01" ++ "T" ++ "08:30:00") ("2025-01-01" ++ "T" ++ "17:00:00")
          [resNaive] [⟨PyId.str "1", "Desk A"⟩, ⟨PyId.str "2", "Desk B"⟩]) ∧
    checkedIds (expectedEvs ("2025-01-01" ++ "T" ++ "08:30:00") ("2025-01-01" ++ "T" ++ "17:00:00")
        [resNaive] [⟨PyId.str "1", "Desk A"⟩, ⟨PyId.str "2", "Desk B"⟩]) =
      [PyId.str "1", PyId.str "2"] :=
  claim5_exhausted
    { fetch := FetchResp.status 200 [resNaive], book := fun _ => BookResp.status 422 }
    [⟨PyId.str "1", "Desk A"⟩, ⟨PyId.str "2", "Desk B"⟩]
    "2025-01-01" "08:30:00" "17:00:00" [resNaive]
    rfl (by decide)

end Skedda
